import Mathlib

/-!
Verification of `tools/mqtt_playmedia.py` (ghost-tube repository).

The script publishes one MQTT playmedia command.  We embed:
* `build_payload` together with a model of Python's `json.dumps` on a
  single-key dict of strings (default separators, `ensure_ascii=True`);
* a standard JSON reader for flat string-valued objects, used to state the
  round-trip law of the spec;
* `publish_playmedia` as a trace-producing function over an environment
  oracle (connect outcome, the `is_published()` poll sequence and the
  `time.monotonic()` clock), with the acknowledgement wait loop given
  explicit fuel;
* `parse_args` as a model of the configured `argparse` parser (exact
  option tokens with space-separated values; abbreviations and `=`-joined
  values are outside the model), and `main` chaining the two.
-/

namespace GhostTube

/-- Lowercase hex digit for a nibble, as produced by Python's `"%04x"`. -/
def hexDigitChar (n : Nat) : Char :=
  if n < 10 then Char.ofNat (48 + n) else Char.ofNat (87 + n)

/-- The four lowercase hex digits of `n % 0x10000`, most significant first. -/
def toHex4 (n : Nat) : List Char :=
  [hexDigitChar (n / 4096 % 16), hexDigitChar (n / 256 % 16),
   hexDigitChar (n / 16 % 16), hexDigitChar (n % 16)]

/-- JSON escaping of one character exactly as CPython's
`json.encoder.py_encode_basestring_ascii` does it: `\` and `"` escaped,
the five short escapes, `\uXXXX` for the remaining characters outside
`0x20..0x7E`, and a `\uXXXX\uXXXX` surrogate pair above `0xFFFF`. -/
def escapeChar (c : Char) : List Char :=
  if c = '"' then ['\\', '"']
  else if c = '\\' then ['\\', '\\']
  else if c = '\x08' then ['\\', 'b']
  else if c = '\t' then ['\\', 't']
  else if c = '\n' then ['\\', 'n']
  else if c = '\x0c' then ['\\', 'f']
  else if c = '\r' then ['\\', 'r']
  else if c.toNat < 32 ∨ 126 < c.toNat then
    if c.toNat < 65536 then
      '\\' :: 'u' :: toHex4 c.toNat
    else
      ('\\' :: 'u' :: toHex4 (55296 + (c.toNat - 65536) / 1024)) ++
      ('\\' :: 'u' :: toHex4 (56320 + (c.toNat - 65536) % 1024))
  else [c]

/-- JSON escaping of a character list. -/
def escapeList : List Char → List Char
  | [] => []
  | c :: t => escapeChar c ++ escapeList t

/-- Model of `json.dumps({key: value})` for one string key and one string
value with CPython's defaults: `\x7b"key": "value"\x7d` with a single
space after the colon and both strings escaped by `escapeChar`. -/
def json_dumps_obj1 (key value : String) : String :=
  String.mk ('\x7b' :: '"' ::
    (escapeList key.data ++ ('"' :: ':' :: ' ' :: '"' ::
      (escapeList value.data ++ ['"', '\x7d']))))

/-- `build_payload` from the source: JSON object when `as_json`, the raw
video id otherwise. -/
def build_payload (video_id : String) (as_json : Bool) : String :=
  if as_json then json_dumps_obj1 "media_content_id" video_id else video_id

/-- Value of a hex digit (both cases accepted, as a JSON reader does). -/
def hexVal (c : Char) : Option Nat :=
  if 48 ≤ c.toNat ∧ c.toNat ≤ 57 then some (c.toNat - 48)
  else if 97 ≤ c.toNat ∧ c.toNat ≤ 102 then some (c.toNat - 87)
  else if 65 ≤ c.toNat ∧ c.toNat ≤ 70 then some (c.toNat - 55)
  else none

/-- Value of four hex digits, most significant first. -/
def hex4 (a b c d : Char) : Option Nat :=
  match hexVal a, hexVal b, hexVal c, hexVal d with
  | some w, some x, some y, some z => some (w * 4096 + x * 256 + y * 16 + z)
  | _, _, _, _ => none

/-- Prepend a decoded character to a string-body parse result. -/
def mapCons (c : Char) (r : Option (List Char × List Char)) :
    Option (List Char × List Char) :=
  r.map (fun p => (c :: p.1, p.2))

/-- Decode a `\uXXXX` escape (input starts at the first hex digit),
combining a surrogate pair into one scalar value; `next` continues the
string body after the escape. -/
def uEsc (next : List Char → Option (List Char × List Char)) :
    List Char → Option (List Char × List Char)
  | h1 :: h2 :: h3 :: h4 :: t1 =>
    (hex4 h1 h2 h3 h4).bind (fun n =>
      if 55296 ≤ n ∧ n < 56320 then
        match t1 with
        | b1 :: u1 :: l1 :: l2 :: l3 :: l4 :: t2 =>
          if b1 = '\\' ∧ u1 = 'u' then
            (hex4 l1 l2 l3 l4).bind (fun m =>
              if 56320 ≤ m ∧ m < 57344 then
                mapCons (Char.ofNat (65536 + (n - 55296) * 1024 + (m - 56320)))
                  (next t2)
              else none)
          else none
        | _ => none
      else if 56320 ≤ n ∧ n < 57344 then none
      else mapCons (Char.ofNat n) (next t1))
  | _ => none

/-- Fuelled string-body reader; each produced character costs one unit of
fuel, so fuel `length + 1` always suffices. -/
def parseStrBody : Nat → List Char → Option (List Char × List Char)
  | 0, _ => none
  | fuel + 1, l =>
    match l with
    | [] => none
    | c :: rest =>
      if c = '"' then some ([], rest)
      else if c = '\\' then
        match rest with
        | [] => none
        | e :: t =>
          if e = '"' then mapCons '"' (parseStrBody fuel t)
          else if e = '\\' then mapCons '\\' (parseStrBody fuel t)
          else if e = '/' then mapCons '/' (parseStrBody fuel t)
          else if e = 'b' then mapCons '\x08' (parseStrBody fuel t)
          else if e = 'f' then mapCons '\x0c' (parseStrBody fuel t)
          else if e = 'n' then mapCons '\n' (parseStrBody fuel t)
          else if e = 'r' then mapCons '\r' (parseStrBody fuel t)
          else if e = 't' then mapCons '\t' (parseStrBody fuel t)
          else if e = 'u' then uEsc (fun l2 => parseStrBody fuel l2) t
          else none
      else mapCons c (parseStrBody fuel rest)

/-- JSON insignificant whitespace. -/
def isWs (c : Char) : Bool := c = ' ' ∨ c = '\t' ∨ c = '\n' ∨ c = '\r'

/-- Drop leading JSON whitespace. -/
def skipWs : List Char → List Char
  | [] => []
  | c :: t => if isWs c then skipWs t else c :: t

/-- Read one JSON string (opening quote included). -/
def parseJString (l : List Char) : Option (String × List Char) :=
  match l with
  | [] => none
  | c :: t =>
    if c = '"' then
      (parseStrBody (t.length + 1) t).map (fun p => (String.mk p.1, p.2))
    else none

/-- Read the members of a non-empty flat object of string keys and string
values, after the opening brace, consuming the closing brace. -/
def parseMembers : Nat → List Char → Option (List (String × String) × List Char)
  | 0, _ => none
  | fuel + 1, l =>
    match parseJString (skipWs l) with
    | none => none
    | some (k, r1) =>
      match skipWs r1 with
      | [] => none
      | c2 :: r2 =>
        if c2 = ':' then
          match parseJString (skipWs r2) with
          | none => none
          | some (v, r3) =>
            match skipWs r3 with
            | [] => none
            | c3 :: r4 =>
              if c3 = '\x7d' then some ([(k, v)], r4)
              else if c3 = ',' then
                (parseMembers fuel r4).map (fun p => ((k, v) :: p.1, p.2))
              else none
        else none

/-- A JSON reader for a whole document that is a flat object with string
keys and string values: the decode side of the spec's round-trip law. -/
def json_loads_obj (s : String) : Option (List (String × String)) :=
  match skipWs s.data with
  | [] => none
  | c :: r =>
    if c = '\x7b' then
      match skipWs r with
      | [] => none
      | c2 :: r2 =>
        if c2 = '\x7d' then (if skipWs r2 = [] then some [] else none)
        else
          match parseMembers (r.length + 1) r with
          | none => none
          | some (ms, rest) => if skipWs rest = [] then some ms else none
    else none

theorem char_ofNat_toNat (c : Char) : Char.ofNat c.toNat = c := by
  obtain ⟨⟨⟨n, h⟩⟩, hv⟩ := c
  have hv' : Nat.isValidChar n := hv
  show Char.ofNat n = _
  unfold Char.ofNat
  rw [dif_pos hv']
  rfl

theorem char_valid_nat (c : Char) :
    c.toNat < 55296 ∨ (57343 < c.toNat ∧ c.toNat < 1114112) := c.valid

theorem hexVal_hexDigitChar (d : Nat) (h : d < 16) :
    hexVal (hexDigitChar d) = some d := by
  interval_cases d <;> decide

theorem hex4_toHex4 (n : Nat) (h : n < 65536) :
    hex4 (hexDigitChar (n / 4096 % 16)) (hexDigitChar (n / 256 % 16))
      (hexDigitChar (n / 16 % 16)) (hexDigitChar (n % 16)) = some n := by
  have h1 : n / 4096 % 16 < 16 := Nat.mod_lt _ (by norm_num)
  have h2 : n / 256 % 16 < 16 := Nat.mod_lt _ (by norm_num)
  have h3 : n / 16 % 16 < 16 := Nat.mod_lt _ (by norm_num)
  have h4 : n % 16 < 16 := Nat.mod_lt _ (by norm_num)
  rw [hex4, hexVal_hexDigitChar _ h1, hexVal_hexDigitChar _ h2,
    hexVal_hexDigitChar _ h3, hexVal_hexDigitChar _ h4]
  simp only [Option.some.injEq]
  omega

theorem uEsc_eval_single (next : List Char → Option (List Char × List Char))
    (n : Nat) (t : List Char) (hn16 : n < 65536)
    (hs1 : ¬(55296 ≤ n ∧ n < 56320)) (hs2 : ¬(56320 ≤ n ∧ n < 57344)) :
    uEsc next (toHex4 n ++ t) = mapCons (Char.ofNat n) (next t) := by
  simp only [toHex4, List.cons_append, List.nil_append]
  rw [uEsc, hex4_toHex4 _ hn16]
  simp only [Option.some_bind, if_neg hs1, if_neg hs2]

theorem uEsc_eval_pair (next : List Char → Option (List Char × List Char))
    (hi lo : Nat) (t : List Char)
    (hhi16 : hi < 65536) (hlo16 : lo < 65536)
    (hp1 : 55296 ≤ hi ∧ hi < 56320) (hp2 : 56320 ≤ lo ∧ lo < 57344) :
    uEsc next (toHex4 hi ++ ('\\' :: 'u' :: (toHex4 lo ++ t))) =
      mapCons (Char.ofNat (65536 + (hi - 55296) * 1024 + (lo - 56320))) (next t) := by
  simp only [toHex4, List.cons_append, List.nil_append, List.append_assoc]
  rw [uEsc, hex4_toHex4 _ hhi16]
  simp only [Option.some_bind, if_pos hp1, if_pos hp2, and_self, if_true,
    hex4_toHex4 _ hlo16]

theorem parseStrBody_succ_esc (fuel : Nat) (e : Char) (t : List Char) :
    parseStrBody (fuel + 1) ('\\' :: e :: t) =
      (if e = '"' then mapCons '"' (parseStrBody fuel t)
      else if e = '\\' then mapCons '\\' (parseStrBody fuel t)
      else if e = '/' then mapCons '/' (parseStrBody fuel t)
      else if e = 'b' then mapCons '\x08' (parseStrBody fuel t)
      else if e = 'f' then mapCons '\x0c' (parseStrBody fuel t)
      else if e = 'n' then mapCons '\n' (parseStrBody fuel t)
      else if e = 'r' then mapCons '\r' (parseStrBody fuel t)
      else if e = 't' then mapCons '\t' (parseStrBody fuel t)
      else if e = 'u' then uEsc (fun l2 => parseStrBody fuel l2) t
      else none) := by
  simp only [parseStrBody]
  simp

theorem parseStrBody_succ_plain (fuel : Nat) (c : Char) (rest : List Char)
    (h1 : ¬c = '"') (h2 : ¬c = '\\') :
    parseStrBody (fuel + 1) (c :: rest) = mapCons c (parseStrBody fuel rest) := by
  simp only [parseStrBody]
  rw [if_neg h1, if_neg h2]

theorem parseStrBody_succ_quote (fuel : Nat) (rest : List Char) :
    parseStrBody (fuel + 1) ('"' :: rest) = some ([], rest) := by
  simp only [parseStrBody]
  simp

theorem parseStrBody_escapeChar (c : Char) (t : List Char) (fuel : Nat) :
    parseStrBody (fuel + 1) (escapeChar c ++ t) = mapCons c (parseStrBody fuel t) := by
  by_cases h1 : c = '"'
  · subst h1; simp [escapeChar, parseStrBody_succ_esc]
  by_cases h2 : c = '\\'
  · subst h2; simp [escapeChar, parseStrBody_succ_esc]
  by_cases h3 : c = '\x08'
  · subst h3; simp [escapeChar, parseStrBody_succ_esc]
  by_cases h4 : c = '\t'
  · subst h4; simp [escapeChar, parseStrBody_succ_esc]
  by_cases h5 : c = '\n'
  · subst h5; simp [escapeChar, parseStrBody_succ_esc]
  by_cases h6 : c = '\x0c'
  · subst h6; simp [escapeChar, parseStrBody_succ_esc]
  by_cases h7 : c = '\r'
  · subst h7; simp [escapeChar, parseStrBody_succ_esc]
  by_cases h8 : c.toNat < 32 ∨ 126 < c.toNat
  · by_cases h9 : c.toNat < 65536
    · have hval := char_valid_nat c
      have hs : ¬(55296 ≤ c.toNat ∧ c.toNat < 56320) := by omega
      have hs2 : ¬(56320 ≤ c.toNat ∧ c.toNat < 57344) := by omega
      rw [escapeChar, if_neg h1, if_neg h2, if_neg h3, if_neg h4, if_neg h5,
        if_neg h6, if_neg h7, if_pos h8, if_pos h9]
      simp only [List.cons_append]
      rw [parseStrBody_succ_esc,
        if_neg (by decide : ¬('u' : Char) = '"'),
        if_neg (by decide : ¬('u' : Char) = '\\'),
        if_neg (by decide : ¬('u' : Char) = '/'),
        if_neg (by decide : ¬('u' : Char) = 'b'),
        if_neg (by decide : ¬('u' : Char) = 'f'),
        if_neg (by decide : ¬('u' : Char) = 'n'),
        if_neg (by decide : ¬('u' : Char) = 'r'),
        if_neg (by decide : ¬('u' : Char) = 't'),
        if_pos (rfl : ('u' : Char) = 'u'),
        uEsc_eval_single _ _ _ h9 hs hs2, char_ofNat_toNat]
    · have hval := char_valid_nat c
      have hge : 65536 ≤ c.toNat := by omega
      have hmod := Nat.mod_lt (c.toNat - 65536) (show 0 < 1024 by norm_num)
      have hvlt : c.toNat < 1114112 := by omega
      have hdiv : (c.toNat - 65536) / 1024 < 1024 := by omega
      have hhi : 55296 + (c.toNat - 65536) / 1024 < 65536 := by omega
      have hlo : 56320 + (c.toNat - 65536) % 1024 < 65536 := by omega
      have hsur1 : 55296 ≤ 55296 + (c.toNat - 65536) / 1024 ∧
          55296 + (c.toNat - 65536) / 1024 < 56320 := by omega
      have hsur2 : 56320 ≤ 56320 + (c.toNat - 65536) % 1024 ∧
          56320 + (c.toNat - 65536) % 1024 < 57344 := by omega
      have harith : 65536 +
          (55296 + (c.toNat - 65536) / 1024 - 55296) * 1024 +
          (56320 + (c.toNat - 65536) % 1024 - 56320) = c.toNat := by omega
      rw [escapeChar, if_neg h1, if_neg h2, if_neg h3, if_neg h4, if_neg h5,
        if_neg h6, if_neg h7, if_pos h8, if_neg h9]
      simp only [List.cons_append, List.append_assoc]
      rw [parseStrBody_succ_esc,
        if_neg (by decide : ¬('u' : Char) = '"'),
        if_neg (by decide : ¬('u' : Char) = '\\'),
        if_neg (by decide : ¬('u' : Char) = '/'),
        if_neg (by decide : ¬('u' : Char) = 'b'),
        if_neg (by decide : ¬('u' : Char) = 'f'),
        if_neg (by decide : ¬('u' : Char) = 'n'),
        if_neg (by decide : ¬('u' : Char) = 'r'),
        if_neg (by decide : ¬('u' : Char) = 't'),
        if_pos (rfl : ('u' : Char) = 'u'),
        uEsc_eval_pair _ _ _ _ hhi hlo hsur1 hsur2, harith, char_ofNat_toNat]
  · rw [escapeChar, if_neg h1, if_neg h2, if_neg h3, if_neg h4, if_neg h5,
      if_neg h6, if_neg h7, if_neg h8]
    simp only [List.cons_append, List.nil_append]
    rw [parseStrBody_succ_plain fuel c t h1 h2]

theorem parseStrBody_escapeList (s : List Char) (rest : List Char) (fuel : Nat) :
    parseStrBody (s.length + fuel + 1) (escapeList s ++ ('"' :: rest)) =
      some (s, rest) := by
  induction s generalizing fuel with
  | nil =>
    rw [escapeList, List.nil_append, List.length_nil, Nat.zero_add,
      parseStrBody_succ_quote]
  | cons c t ih =>
    have hlen : (c :: t).length + fuel + 1 = (t.length + fuel + 1) + 1 := by
      simp [List.length_cons]
      omega
    rw [hlen, escapeList, List.append_assoc, parseStrBody_escapeChar, ih]
    rfl

theorem parseStrBody_escapeList_le (s : List Char) (rest : List Char) (fuel : Nat)
    (h : s.length + 1 ≤ fuel) :
    parseStrBody fuel (escapeList s ++ ('"' :: rest)) = some (s, rest) := by
  obtain ⟨d, rfl⟩ : ∃ d, fuel = s.length + d + 1 := ⟨fuel - s.length - 1, by omega⟩
  exact parseStrBody_escapeList s rest d

theorem string_data_mk (l : List Char) : (String.mk l).data = l := rfl

theorem string_mk_data (s : String) : String.mk s.data = s := rfl

theorem skipWs_not_ws (c : Char) (t : List Char) (h : isWs c = false) :
    skipWs (c :: t) = c :: t := by
  simp [skipWs, h]

theorem skipWs_ws (c : Char) (t : List Char) (h : isWs c = true) :
    skipWs (c :: t) = skipWs t := by
  simp [skipWs, h]

theorem one_le_length_escapeChar (c : Char) : 1 ≤ (escapeChar c).length := by
  rw [escapeChar]
  split_ifs <;> simp [toHex4]

theorem le_length_escapeList (s : List Char) : s.length ≤ (escapeList s).length := by
  induction s with
  | nil => simp [escapeList]
  | cons c t ih =>
    have := one_le_length_escapeChar c
    simp only [escapeList, List.length_append, List.length_cons]
    omega

theorem parseJString_escaped (s : List Char) (rest : List Char) :
    parseJString ('"' :: (escapeList s ++ ('"' :: rest))) =
      some (String.mk s, rest) := by
  rw [parseJString, if_pos rfl]
  rw [parseStrBody_escapeList_le s rest _ (by
    have := le_length_escapeList s
    simp only [List.length_append, List.length_cons]
    omega)]
  rfl

theorem json_loads_dumps (key v : String) :
    json_loads_obj (json_dumps_obj1 key v) = some [(key, v)] := by
  rw [json_loads_obj, json_dumps_obj1, string_data_mk,
    skipWs_not_ws _ _ (by decide)]
  simp only [if_true]
  rw [skipWs_not_ws _ _ (by decide)]
  simp only [if_false]
  rw [if_neg (by decide : ¬('"' : Char) = '\x7d')]
  rw [parseMembers, skipWs_not_ws _ _ (by decide), parseJString_escaped,
    string_mk_data]
  simp only []
  rw [skipWs_not_ws _ _ (by decide)]
  simp only [if_true]
  rw [skipWs_ws _ _ (by decide), skipWs_not_ws _ _ (by decide),
    parseJString_escaped, string_mk_data]
  simp only []
  rw [skipWs_not_ws _ _ (by decide)]
  simp only [if_true]
  rw [skipWs]
  simp only [if_true]

/-- C2: for every video identifier `v`, the JSON payload built by
`build_payload v true` decodes (by a standard JSON reader) to an object
with exactly one key `media_content_id` whose value is `v`, the escaping
being inverted exactly. -/
theorem claim_C2_payload_roundtrip (v : String) :
    json_loads_obj (build_payload v true) = some [("media_content_id", v)] := by
  simpa [build_payload] using json_loads_dumps "media_content_id" v

/-- C9: with JSON mode disabled the payload is the video identifier
itself, for every input string (the function is total). -/
theorem claim_C9_plain_identity (v : String) : build_payload v false = v := rfl

/-- The invocation configuration: the fields of the argparse namespace,
which are exactly the parameters of `publish_playmedia` (`ws_path` is
passed as `path`).  Defaults are the ones declared in `parse_args`. -/
structure Args where
  device : String := ""
  video_id : String := ""
  broker : String := "192.168.86.29"
  port : Int := 8083
  username : Option String := none
  password : Option String := none
  retain : Bool := false
  qos : Int := 1
  use_json : Bool := true
  transport : String := "websockets"
  ws_path : String := "/"
  timeout : ℚ := 5
  deriving Repr

/-- Environment oracle for one run: whether `client.connect` raises (and
the exception text), the successive results of `info.is_published()`
(poll number `k`), and the successive readings of `time.monotonic()`
(reading `0` seeds the deadline; reading `k + 1` is taken inside loop
iteration `k`). -/
structure Env where
  connectRaises : Bool
  connectError : String
  isPublished : Nat → Bool
  monotonic : Nat → ℚ

/-- Observable actions of `publish_playmedia`, in program order: calls on
the MQTT client plus writes to standard output and standard error. -/
inductive Event where
  | ws_set_options (path : String)
  | username_pw_set (username : String) (password : Option String)
  | connect (host : String) (port : Int) (keepalive : Nat)
  | loop_start
  | publish (topic : String) (payload : String) (qos : Int) (retain : Bool)
  | sleep (ms : Nat)
  | loop_stop
  | disconnect
  | print_stdout (msg : String)
  | print_stderr (msg : String)
  deriving DecidableEq, Repr

/-- The topic f-string of `publish_playmedia`. -/
def topicFor (device : String) : String :=
  "ghost-tube/media_player/" ++ device ++ "/playmedia"

/-- The acknowledgement wait loop: poll `is_published()`; on success exit
code 0; else if `time.monotonic() > deadline` exit code 2; else sleep
100 ms and repeat.  `fuel` bounds the number of iterations (`none` means
the loop was still running after `fuel` iterations); `k` is the current
poll index and `evs` the trace so far. -/
def waitLoop (env : Env) (deadline : ℚ) : Nat → Nat → List Event →
    Option (Nat × List Event)
  | 0, _, _ => none
  | fuel + 1, k, evs =>
    if env.isPublished k then
      some (0, evs ++ [Event.print_stdout "Publish acknowledged.",
        Event.loop_stop, Event.disconnect])
    else if deadline < env.monotonic (k + 1) then
      some (2, evs ++ [Event.print_stderr "Publish timed out.",
        Event.loop_stop, Event.disconnect])
    else
      waitLoop env deadline fuel (k + 1) (evs ++ [Event.sleep 100])

/-- Client-setup events up to and including the `connect` attempt:
optional WebSocket options, optional authentication (Python's
`if username:` is false for `None` and for the empty string), the
connecting message, and the `connect` call itself. -/
def preEvents (a : Args) : List Event :=
  (if a.transport = "websockets" then [Event.ws_set_options a.ws_path] else []) ++
  (match a.username with
   | some u => if u = "" then [] else [Event.username_pw_set u a.password]
   | none => []) ++
  [Event.print_stdout ("Connecting to " ++ a.broker ++ ":" ++ toString a.port ++
     " via " ++ a.transport ++ "…"),
   Event.connect a.broker a.port 20]

/-- Events on the successful-connect path up to and including the
`publish` call. -/
def setupEvents (a : Args) : List Event :=
  preEvents a ++
  [Event.loop_start,
   Event.print_stdout ("Publishing to " ++ topicFor a.device ++ " (qos=" ++
     toString a.qos ++ ", retain=" ++ (if a.retain then "True" else "False") ++
     ")…"),
   Event.publish (topicFor a.device) (build_payload a.video_id a.use_json)
     a.qos a.retain]

/-- `publish_playmedia`: returns the exit code together with the trace of
events, or `none` if the wait loop exceeds `fuel` iterations. -/
def publish_playmedia (a : Args) (env : Env) (fuel : Nat) :
    Option (Nat × List Event) :=
  if env.connectRaises then
    some (1, preEvents a ++
      [Event.print_stderr ("Connection failed: " ++ env.connectError)])
  else
    waitLoop env (env.monotonic 0 + a.timeout) fuel 0 (setupEvents a)

/-- Value of a decimal digit. -/
def digitVal (c : Char) : Option Nat :=
  if 48 ≤ c.toNat ∧ c.toNat ≤ 57 then some (c.toNat - 48) else none

/-- Accumulate decimal digits (fails on a non-digit). -/
def digitsValAux : List Char → Nat → Option Nat
  | [], acc => some acc
  | c :: t, acc =>
    match digitVal c with
    | some d => digitsValAux t (acc * 10 + d)
    | none => none

/-- Value of a non-empty all-digit string. -/
def digitsVal (l : List Char) : Option Nat :=
  match l with
  | [] => none
  | _ => digitsValAux l 0

/-- Model of Python's `int(s)` as used by `argparse` type conversion:
an optional sign followed by decimal digits (whitespace trimming and
underscore separators are outside the model). -/
def pyInt (s : String) : Option Int :=
  match s.data with
  | '-' :: ds => (digitsVal ds).map (fun n => -(n : Int))
  | '+' :: ds => (digitsVal ds).map (fun n => (n : Int))
  | ds => (digitsVal ds).map (fun n => (n : Int))

/-- Magnitude part of a decimal float literal: digits, with an optional
point and fraction; one of the two sides may be empty but not both. -/
def pyFloatMag (l : List Char) : Option ℚ :=
  let ip := l.takeWhile (fun c => ¬c = '.')
  let rest := l.dropWhile (fun c => ¬c = '.')
  match rest with
  | [] => (digitsVal ip).map (fun n => (n : ℚ))
  | _ :: frac =>
    match digitsValAux ip 0, digitsValAux frac 0 with
    | some i, some f =>
      if ip = [] ∧ frac = [] then none
      else some ((i : ℚ) + (f : ℚ) / (10 : ℚ) ^ frac.length)
    | _, _ => none

/-- Model of Python's `float(s)` for the plain decimal forms `argparse`
passes through (exponents, infinities and nan are outside the model). -/
def pyFloat (s : String) : Option ℚ :=
  match s.data with
  | '-' :: t => (pyFloatMag t).map (fun q => -q)
  | '+' :: t => pyFloatMag t
  | t => pyFloatMag t

/-- One pass of the configured argparse parser over the remaining tokens:
`acc` holds option values seen so far (starting from the declared
defaults), `pos` the positional values seen so far.  Exact option tokens
with space-separated values are modelled; `--qos` and `--transport`
enforce their `choices`, `--port`, `--qos` and `--timeout` their type
conversions, `--retain` stores true and `--plain` stores
`use_json := false`.  An unrecognized `--` token or a wrong positional
count is a usage error.  `finishPos` assigns the collected positionals
in order (`device` then `video_id`), requiring exactly two. -/
def finishPos (acc : Args) : List String → Except String Args
  | [d, vid] => Except.ok { acc with device := d, video_id := vid }
  | _ => Except.error "usage: expected exactly the positionals device and video_id"

/-- The token pass itself; see `finishPos` for the end of input. -/
def parse_args_loop : List String → Args → List String → Except String Args
  | [], acc, pos => finishPos acc pos
  | tok :: rest, acc, pos =>
    if tok = "--retain" then parse_args_loop rest { acc with retain := true } pos
    else if tok = "--plain" then
      parse_args_loop rest { acc with use_json := false } pos
    else if tok = "--broker" then
      match rest with
      | v :: rest2 => parse_args_loop rest2 { acc with broker := v } pos
      | [] => Except.error "argument --broker: expected one argument"
    else if tok = "--port" then
      match rest with
      | v :: rest2 =>
        match pyInt v with
        | some n => parse_args_loop rest2 { acc with port := n } pos
        | none => Except.error "argument --port: invalid int value"
      | [] => Except.error "argument --port: expected one argument"
    else if tok = "--username" then
      match rest with
      | v :: rest2 => parse_args_loop rest2 { acc with username := some v } pos
      | [] => Except.error "argument --username: expected one argument"
    else if tok = "--password" then
      match rest with
      | v :: rest2 => parse_args_loop rest2 { acc with password := some v } pos
      | [] => Except.error "argument --password: expected one argument"
    else if tok = "--qos" then
      match rest with
      | v :: rest2 =>
        match pyInt v with
        | some n =>
          if n = 0 ∨ n = 1 ∨ n = 2 then
            parse_args_loop rest2 { acc with qos := n } pos
          else Except.error "argument --qos: invalid choice"
        | none => Except.error "argument --qos: invalid int value"
      | [] => Except.error "argument --qos: expected one argument"
    else if tok = "--transport" then
      match rest with
      | v :: rest2 =>
        if v = "tcp" ∨ v = "websockets" then
          parse_args_loop rest2 { acc with transport := v } pos
        else Except.error "argument --transport: invalid choice"
      | [] => Except.error "argument --transport: expected one argument"
    else if tok = "--ws-path" then
      match rest with
      | v :: rest2 => parse_args_loop rest2 { acc with ws_path := v } pos
      | [] => Except.error "argument --ws-path: expected one argument"
    else if tok = "--timeout" then
      match rest with
      | v :: rest2 =>
        match pyFloat v with
        | some q => parse_args_loop rest2 { acc with timeout := q } pos
        | none => Except.error "argument --timeout: invalid float value"
      | [] => Except.error "argument --timeout: expected one argument"
    else if String.startsWith tok "--" then
      Except.error "unrecognized arguments"
    else parse_args_loop rest acc (pos ++ [tok])

/-- `parse_args`: run the token pass from the declared defaults. -/
def parse_args (argv : List String) : Except String Args :=
  parse_args_loop argv {} []

/-- `main`: on a parse error `argparse` prints usage and exits the
process with status 2 before any client call (empty event trace);
otherwise it runs `publish_playmedia` on the parsed configuration. -/
def main (argv : List String) (env : Env) (fuel : Nat) :
    Option (Nat × List Event) :=
  match parse_args argv with
  | Except.error _ => some (2, [])
  | Except.ok a => publish_playmedia a env fuel

theorem waitLoop_tail (env : Env) (dl : ℚ) :
    ∀ fuel k evs c evs', waitLoop env dl fuel k evs = some (c, evs') →
      ∃ pre, evs' = pre ++ [Event.loop_stop, Event.disconnect] := by
  intro fuel
  induction fuel with
  | zero => intro k evs c evs' h; simp [waitLoop] at h
  | succ n ih =>
    intro k evs c evs' h
    rw [waitLoop] at h
    split_ifs at h with hp hd
    · rw [Option.some.injEq, Prod.mk.injEq] at h
      obtain ⟨-, rfl⟩ := h
      exact ⟨evs ++ [Event.print_stdout "Publish acknowledged."], by simp⟩
    · rw [Option.some.injEq, Prod.mk.injEq] at h
      obtain ⟨-, rfl⟩ := h
      exact ⟨evs ++ [Event.print_stderr "Publish timed out."], by simp⟩
    · exact ih (k + 1) (evs ++ [Event.sleep 100]) c evs' h

theorem waitLoop_mem_mono (env : Env) (dl : ℚ) :
    ∀ fuel k evs c evs', waitLoop env dl fuel k evs = some (c, evs') →
      ∀ e, e ∈ evs → e ∈ evs' := by
  intro fuel
  induction fuel with
  | zero => intro k evs c evs' h; simp [waitLoop] at h
  | succ n ih =>
    intro k evs c evs' h e he
    rw [waitLoop] at h
    split_ifs at h with hp hd
    · rw [Option.some.injEq, Prod.mk.injEq] at h
      obtain ⟨-, rfl⟩ := h
      exact List.mem_append_left _ he
    · rw [Option.some.injEq, Prod.mk.injEq] at h
      obtain ⟨-, rfl⟩ := h
      exact List.mem_append_left _ he
    · exact ih (k + 1) (evs ++ [Event.sleep 100]) c evs' h e
        (List.mem_append_left _ he)

theorem waitLoop_mem_subset (env : Env) (dl : ℚ) :
    ∀ fuel k evs c evs', waitLoop env dl fuel k evs = some (c, evs') →
      ∀ e, e ∈ evs' → e ∈ evs ∨
        e = Event.print_stdout "Publish acknowledged." ∨
        e = Event.print_stderr "Publish timed out." ∨
        e = Event.sleep 100 ∨ e = Event.loop_stop ∨ e = Event.disconnect := by
  intro fuel
  induction fuel with
  | zero => intro k evs c evs' h; simp [waitLoop] at h
  | succ n ih =>
    intro k evs c evs' h e he
    rw [waitLoop] at h
    split_ifs at h with hp hd
    · rw [Option.some.injEq, Prod.mk.injEq] at h
      obtain ⟨-, rfl⟩ := h
      rcases List.mem_append.mp he with h1 | h1
      · exact Or.inl h1
      · simp only [List.mem_cons, List.not_mem_nil, or_false] at h1
        tauto
    · rw [Option.some.injEq, Prod.mk.injEq] at h
      obtain ⟨-, rfl⟩ := h
      rcases List.mem_append.mp he with h1 | h1
      · exact Or.inl h1
      · simp only [List.mem_cons, List.not_mem_nil, or_false] at h1
        tauto
    · rcases ih (k + 1) (evs ++ [Event.sleep 100]) c evs' h e he with h1 | h1
      · rcases List.mem_append.mp h1 with h2 | h2
        · exact Or.inl h2
        · simp only [List.mem_cons, List.not_mem_nil, or_false] at h2
          tauto
      · tauto

theorem waitLoop_cases (env : Env) (dl : ℚ) :
    ∀ fuel k evs c evs', waitLoop env dl fuel k evs = some (c, evs') →
      (c = 0 ∧ ∃ j, k ≤ j ∧ env.isPublished j = true ∧
        ∀ i, k ≤ i → i < j →
          env.isPublished i = false ∧ env.monotonic (i + 1) ≤ dl) ∨
      (c = 2 ∧ ∃ j, k ≤ j ∧ env.isPublished j = false ∧
        dl < env.monotonic (j + 1) ∧
        ∀ i, k ≤ i → i < j →
          env.isPublished i = false ∧ env.monotonic (i + 1) ≤ dl) := by
  intro fuel
  induction fuel with
  | zero => intro k evs c evs' h; simp [waitLoop] at h
  | succ n ih =>
    intro k evs c evs' h
    rw [waitLoop] at h
    split_ifs at h with hp hd
    · rw [Option.some.injEq, Prod.mk.injEq] at h
      obtain ⟨rfl, -⟩ := h.imp_left Eq.symm
      exact Or.inl ⟨rfl, k, le_refl k, hp, fun i h1 h2 => (by omega : False).elim⟩
    · rw [Option.some.injEq, Prod.mk.injEq] at h
      obtain ⟨rfl, -⟩ := h.imp_left Eq.symm
      refine Or.inr ⟨rfl, k, le_refl k, ?_, hd, fun i h1 h2 => (by omega : False).elim⟩
      exact Bool.not_eq_true _ ▸ (by simpa using hp)
    · rcases ih (k + 1) (evs ++ [Event.sleep 100]) c evs' h with
        ⟨hc, j, hkj, hj, hint⟩ | ⟨hc, j, hkj, hj, hdl, hint⟩
      · refine Or.inl ⟨hc, j, by omega, hj, fun i h1 h2 => ?_⟩
        rcases Nat.eq_or_lt_of_le h1 with rfl | h3
        · exact ⟨by simpa using hp, not_lt.mp hd⟩
        · exact hint i h3 h2
      · refine Or.inr ⟨hc, j, by omega, hj, hdl, fun i h1 h2 => ?_⟩
        rcases Nat.eq_or_lt_of_le h1 with rfl | h3
        · exact ⟨by simpa using hp, not_lt.mp hd⟩
        · exact hint i h3 h2

theorem upw_mem_preEvents (a : Args) (u : String) (p : Option String) :
    Event.username_pw_set u p ∈ preEvents a ↔
      (a.username = some u ∧ ¬u = "" ∧ p = a.password) := by
  cases hu : a.username with
  | none =>
    simp only [preEvents, hu, List.mem_append]
    split_ifs <;> simp
  | some un =>
    by_cases hue : un = ""
    · subst hue
      simp only [preEvents, hu, List.mem_append, if_pos rfl]
      split_ifs <;> simp +contextual [eq_comm]
    · simp only [preEvents, hu, List.mem_append, if_neg hue]
      split_ifs <;> simp +contextual [hue, eq_comm]

theorem loop_start_not_mem_preEvents (a : Args) :
    Event.loop_start ∉ preEvents a := by
  simp only [preEvents, List.mem_append]
  rcases a.username with _ | un <;> split_ifs <;> simp_all

theorem publish_not_mem_preEvents (a : Args) (t p : String) (q : Int) (r : Bool) :
    Event.publish t p q r ∉ preEvents a := by
  simp only [preEvents, List.mem_append]
  rcases a.username with _ | un <;> split_ifs <;> simp_all

theorem sleep_not_mem_preEvents (a : Args) (n : Nat) :
    Event.sleep n ∉ preEvents a := by
  simp only [preEvents, List.mem_append]
  rcases a.username with _ | un <;> split_ifs <;> simp_all

theorem publish_mem_setupEvents (a : Args) (t p : String) (q : Int) (r : Bool) :
    Event.publish t p q r ∈ setupEvents a ↔
      (t = topicFor a.device ∧ p = build_payload a.video_id a.use_json ∧
        q = a.qos ∧ r = a.retain) := by
  simp [setupEvents, List.mem_append, publish_not_mem_preEvents]

theorem sleep_not_mem_setupEvents (a : Args) (n : Nat) :
    Event.sleep n ∉ setupEvents a := by
  simp [setupEvents, List.mem_append, sleep_not_mem_preEvents]

theorem upw_mem_setupEvents (a : Args) (u : String) (p : Option String) :
    Event.username_pw_set u p ∈ setupEvents a ↔
      (a.username = some u ∧ ¬u = "" ∧ p = a.password) := by
  rw [← upw_mem_preEvents a u p]
  simp [setupEvents, List.mem_append]

/-- Fixture: a run with the spec's example positionals and all defaults. -/
def wArgs : Args := { device := "living-room-tv", video_id := "abc123" }

/-- Fixture: an environment whose publish handle is acknowledged at the
first poll. -/
def wEnvAck : Env :=
  { connectRaises := false, connectError := "",
    isPublished := fun _ => true, monotonic := fun _ => 0 }

/-- Fixture: an environment whose connect attempt raises. -/
def wEnvFail : Env :=
  { connectRaises := true, connectError := "unreachable",
    isPublished := fun _ => false, monotonic := fun _ => 0 }

/-- Fixture: an environment that never acknowledges, with the clock
advancing 100 ms per poll. -/
def wEnvSlow : Env :=
  { connectRaises := false, connectError := "",
    isPublished := fun _ => false, monotonic := fun k => (k : ℚ) / 10 }

/-- Fixture: a configuration whose `--username` was supplied as the empty
string. -/
def wArgsEmptyUser : Args :=
  { device := "d", video_id := "v", username := some "" }

theorem monotonic_lower (env : Env)
    (hprog : ∀ k, env.monotonic k + 1 / 10 ≤ env.monotonic (k + 1)) :
    ∀ k : Nat, env.monotonic 0 + (k : ℚ) * (1 / 10) ≤ env.monotonic k := by
  intro k
  induction k with
  | zero => simp
  | succ n ih =>
    have := hprog n
    push_cast
    push_cast at ih
    linarith

theorem waitLoop_isSome (env : Env) (dl : ℚ) :
    ∀ fuel k evs, (∃ j, j < fuel ∧ dl < env.monotonic (k + j + 1)) →
      ∃ r, waitLoop env dl fuel k evs = some r := by
  intro fuel
  induction fuel with
  | zero =>
    intro k evs h
    obtain ⟨j, hj, -⟩ := h
    exact absurd hj (Nat.not_lt_zero j)
  | succ n ih =>
    intro k evs h
    rw [waitLoop]
    split_ifs with hp hd
    · exact ⟨_, rfl⟩
    · exact ⟨_, rfl⟩
    · obtain ⟨j, hj, hjj⟩ := h
      rcases Nat.eq_zero_or_pos j with rfl | hjpos
      · exact absurd hjj (by simpa using hd)
      · exact ih (k + 1) (evs ++ [Event.sleep 100])
          ⟨j - 1, by omega, by rw [show k + 1 + (j - 1) + 1 = k + j + 1 by omega]; exact hjj⟩

/-- C1: `publish_playmedia` can only return the exit codes 0, 1 or 2;
it returns 1 exactly when the connect attempt raises; 0 only when some
poll reported the publish acknowledged, every earlier poll having been
within the deadline; and 2 only when a poll found the publish
unacknowledged with the monotonic clock past the deadline
(`monotonic 0 + timeout`), every earlier poll unacknowledged and within
the deadline. -/
theorem claim_C1_exit_codes (a : Args) (env : Env) (fuel : Nat) (c : Nat)
    (evs : List Event) (h : publish_playmedia a env fuel = some (c, evs)) :
    (c = 0 ∨ c = 1 ∨ c = 2) ∧
    (c = 1 ↔ env.connectRaises = true) ∧
    (c = 0 → ∃ j, env.isPublished j = true ∧ ∀ i, i < j →
      env.isPublished i = false ∧
      env.monotonic (i + 1) ≤ env.monotonic 0 + a.timeout) ∧
    (c = 2 → ∃ j, env.isPublished j = false ∧
      env.monotonic 0 + a.timeout < env.monotonic (j + 1) ∧
      ∀ i, i < j → env.isPublished i = false ∧
        env.monotonic (i + 1) ≤ env.monotonic 0 + a.timeout) := by
  rw [publish_playmedia] at h
  by_cases hc : env.connectRaises = true
  · rw [if_pos hc] at h
    rw [Option.some.injEq, Prod.mk.injEq] at h
    obtain ⟨h1, -⟩ := h
    subst h1
    refine ⟨Or.inr (Or.inl rfl), by simp [hc], ?_, ?_⟩
    · intro h0; exact absurd h0 (by norm_num)
    · intro h0; exact absurd h0 (by norm_num)
  · rw [if_neg hc] at h
    rcases waitLoop_cases env _ fuel 0 (setupEvents a) c evs h with
      ⟨rfl, j, -, hj, hint⟩ | ⟨rfl, j, -, hj, hdl, hint⟩
    · refine ⟨Or.inl rfl, by simp [hc], ?_, ?_⟩
      · intro _
        exact ⟨j, hj, fun i hi => hint i (Nat.zero_le i) hi⟩
      · intro h0; exact absurd h0 (by norm_num)
    · refine ⟨Or.inr (Or.inr rfl), by simp [hc], ?_, ?_⟩
      · intro h0; exact absurd h0 (by norm_num)
      · intro _
        exact ⟨j, hj, hdl, fun i hi => hint i (Nat.zero_le i) hi⟩

theorem claim_C1_exit_codes_witness : (0 = 0 ∨ 0 = 1 ∨ 0 = 2) :=
  (claim_C1_exit_codes wArgs wEnvAck 1 0
    (((publish_playmedia wArgs wEnvAck 1).getD (0, [])).2) rfl).1

/-- C3: on the successful-connect path the publish event in the trace has
exactly the topic `"ghost-tube/media_player/" ++ device ++ "/playmedia"`,
with the device name inserted verbatim, and no publish with any other
topic occurs. -/
theorem claim_C3_topic (a : Args) (env : Env) (fuel : Nat) (c : Nat)
    (evs : List Event) (h : publish_playmedia a env fuel = some (c, evs))
    (hc : env.connectRaises = false) :
    Event.publish ("ghost-tube/media_player/" ++ a.device ++ "/playmedia")
      (build_payload a.video_id a.use_json) a.qos a.retain ∈ evs ∧
    (∀ t p q r, Event.publish t p q r ∈ evs →
      t = "ghost-tube/media_player/" ++ a.device ++ "/playmedia") := by
  rw [publish_playmedia, if_neg (by simp [hc])] at h
  constructor
  · apply waitLoop_mem_mono env _ fuel 0 _ c evs h
    exact (publish_mem_setupEvents a _ _ _ _).mpr ⟨rfl, rfl, rfl, rfl⟩
  · intro t p q r hmem
    rcases waitLoop_mem_subset env _ fuel 0 _ c evs h _ hmem with
      h1 | h1 | h1 | h1 | h1 | h1
    · exact ((publish_mem_setupEvents a t p q r).mp h1).1
    all_goals simp_all

theorem claim_C3_topic_witness :
    Event.publish ("ghost-tube/media_player/" ++ wArgs.device ++ "/playmedia")
      (build_payload wArgs.video_id wArgs.use_json) wArgs.qos wArgs.retain ∈
      ((publish_playmedia wArgs wEnvAck 1).getD (0, [])).2 :=
  (claim_C3_topic wArgs wEnvAck 1 0
    (((publish_playmedia wArgs wEnvAck 1).getD (0, [])).2) rfl rfl).1

/-- C5: whenever the run reaches the publish step (the connect attempt
did not raise) and returns, the trace contains a publish event and ends
with `loop_stop` followed by `disconnect` — cleanup happens on the
acknowledged and on the timed-out path alike. -/
theorem claim_C5_cleanup (a : Args) (env : Env) (fuel : Nat) (c : Nat)
    (evs : List Event) (h : publish_playmedia a env fuel = some (c, evs))
    (hc : env.connectRaises = false) :
    (∃ t p q r, Event.publish t p q r ∈ evs) ∧
    ∃ pre, evs = pre ++ [Event.loop_stop, Event.disconnect] := by
  rw [publish_playmedia, if_neg (by simp [hc])] at h
  have hpub := waitLoop_mem_mono env _ fuel 0 _ c evs h _
    ((publish_mem_setupEvents a (topicFor a.device)
      (build_payload a.video_id a.use_json) a.qos a.retain).mpr
      ⟨rfl, rfl, rfl, rfl⟩)
  exact ⟨⟨_, _, _, _, hpub⟩, waitLoop_tail env _ fuel 0 _ c evs h⟩

theorem claim_C5_cleanup_witness :
    (∃ t p q r, Event.publish t p q r ∈
      ((publish_playmedia wArgs wEnvAck 1).getD (0, [])).2) ∧
    ∃ pre, ((publish_playmedia wArgs wEnvAck 1).getD (0, [])).2 =
      pre ++ [Event.loop_stop, Event.disconnect] :=
  claim_C5_cleanup wArgs wEnvAck 1 0
    (((publish_playmedia wArgs wEnvAck 1).getD (0, [])).2) rfl rfl

/-- C7: when the connect attempt raises, the run returns exit code 1 with
the diagnostic on standard error, and the trace contains no `loop_start`
and no publish call. -/
theorem claim_C7_connect_failure (a : Args) (env : Env) (fuel : Nat)
    (h : env.connectRaises = true) :
    ∃ evs, publish_playmedia a env fuel = some (1, evs) ∧
      Event.print_stderr ("Connection failed: " ++ env.connectError) ∈ evs ∧
      Event.loop_start ∉ evs ∧ (∀ t p q r, Event.publish t p q r ∉ evs) := by
  refine ⟨_, by rw [publish_playmedia, if_pos h], ?_, ?_, ?_⟩
  · simp [List.mem_append]
  · intro hm
    rcases List.mem_append.mp hm with h1 | h1
    · exact loop_start_not_mem_preEvents a h1
    · simp at h1
  · intro t p q r hm
    rcases List.mem_append.mp hm with h1 | h1
    · exact publish_not_mem_preEvents a t p q r h1
    · simp at h1

theorem claim_C7_connect_failure_witness :
    ∃ evs, publish_playmedia wArgs wEnvFail 1 = some (1, evs) ∧
      Event.print_stderr ("Connection failed: " ++ wEnvFail.connectError) ∈ evs ∧
      Event.loop_start ∉ evs ∧ (∀ t p q r, Event.publish t p q r ∉ evs) :=
  claim_C7_connect_failure wArgs wEnvFail 1 rfl

/-- C8 (amended): on every returning run, a supplied NON-EMPTY username
leads to `username_pw_set` with that username and the given password
(which may be `none` or empty); with no username, or with the empty
string as username (Python's `if username:` is false on it), no
authentication is configured. -/
theorem claim_C8_auth (a : Args) (env : Env) (fuel : Nat) (c : Nat)
    (evs : List Event) (h : publish_playmedia a env fuel = some (c, evs)) :
    (∀ u, a.username = some u → ¬u = "" →
      Event.username_pw_set u a.password ∈ evs) ∧
    ((a.username = none ∨ a.username = some "") →
      ∀ u p, Event.username_pw_set u p ∉ evs) := by
  rw [publish_playmedia] at h
  by_cases hc : env.connectRaises = true
  · rw [if_pos hc] at h
    rw [Option.some.injEq, Prod.mk.injEq] at h
    obtain ⟨-, hevs⟩ := h
    subst hevs
    constructor
    · intro u hu hue
      exact List.mem_append_left _
        ((upw_mem_preEvents a u a.password).mpr ⟨hu, hue, rfl⟩)
    · rintro hnone u p hm
      rcases List.mem_append.mp hm with h1 | h1
      · have hx := (upw_mem_preEvents a u p).mp h1
        rcases hnone with h2 | h2
        · rw [h2] at hx; exact Option.noConfusion hx.1
        · rw [h2] at hx; exact hx.2.1 ((Option.some.inj hx.1).symm)
      · simp at h1
  · rw [if_neg hc] at h
    constructor
    · intro u hu hue
      exact waitLoop_mem_mono env _ fuel 0 _ c evs h _
        ((upw_mem_setupEvents a u a.password).mpr ⟨hu, hue, rfl⟩)
    · rintro hnone u p hm
      rcases waitLoop_mem_subset env _ fuel 0 _ c evs h _ hm with
        h1 | h1 | h1 | h1 | h1 | h1
      · have hx := (upw_mem_setupEvents a u p).mp h1
        rcases hnone with h2 | h2
        · rw [h2] at hx; exact Option.noConfusion hx.1
        · rw [h2] at hx; exact hx.2.1 ((Option.some.inj hx.1).symm)
      all_goals simp_all

theorem claim_C8_auth_witness :
    (∀ u, wArgsEmptyUser.username = some u → ¬u = "" →
      Event.username_pw_set u wArgsEmptyUser.password ∈
        ((publish_playmedia wArgsEmptyUser wEnvAck 1).getD (0, [])).2) ∧
    ((wArgsEmptyUser.username = none ∨ wArgsEmptyUser.username = some "") →
      ∀ u p, Event.username_pw_set u p ∉
        ((publish_playmedia wArgsEmptyUser wEnvAck 1).getD (0, [])).2) :=
  claim_C8_auth wArgsEmptyUser wEnvAck 1 0
    (((publish_playmedia wArgsEmptyUser wEnvAck 1).getD (0, [])).2) rfl

/-- C8 counterexample: with `--username ""` the username IS supplied
(`username = some ""`), the run returns normally, yet no
`username_pw_set` call with that username occurs in the trace — the
claim as stated fails for the empty-string username. -/
theorem claim_C8_counterexample :
    wArgsEmptyUser.username = some "" ∧
    (publish_playmedia wArgsEmptyUser wEnvAck 1).isSome = true ∧
    (((publish_playmedia wArgsEmptyUser wEnvAck 1).getD (0, [])).2.all
      (fun e =>
        decide (¬e = Event.username_pw_set "" wArgsEmptyUser.password))) =
      true := by
  refine ⟨rfl, rfl, ?_⟩
  decide

/-- C10: if the handle already reports published at the very first poll,
the run exits 0 with no sleep in the trace, whatever the timeout (also
zero or negative) and whatever the clock; and exit code 2 is only
possible when the first poll was unpublished. -/
theorem claim_C10_immediate_ack (a : Args) (env : Env) (fuel : Nat) (c : Nat)
    (evs : List Event) (h : publish_playmedia a env fuel = some (c, evs))
    (hc : env.connectRaises = false) :
    (env.isPublished 0 = true → c = 0 ∧ ∀ n, Event.sleep n ∉ evs) ∧
    (c = 2 → env.isPublished 0 = false) := by
  rw [publish_playmedia, if_neg (by simp [hc])] at h
  constructor
  · intro hp
    cases fuel with
    | zero => simp [waitLoop] at h
    | succ n =>
      rw [waitLoop, if_pos hp] at h
      rw [Option.some.injEq, Prod.mk.injEq] at h
      obtain ⟨h1, h2⟩ := h
      subst h1
      subst h2
      refine ⟨rfl, fun m hm => ?_⟩
      rcases List.mem_append.mp hm with h3 | h3
      · exact sleep_not_mem_setupEvents a m h3
      · simp at h3
  · intro hc2
    subst hc2
    rcases waitLoop_cases env _ fuel 0 _ 2 evs h with
      ⟨h0, -⟩ | ⟨-, j, -, hj, hdl, hint⟩
    · exact absurd h0 (by norm_num)
    · rcases Nat.eq_zero_or_pos j with rfl | hjpos
      · exact hj
      · exact (hint 0 (Nat.zero_le 0) hjpos).1

theorem claim_C10_immediate_ack_witness :
    (wEnvAck.isPublished 0 = true → 0 = 0 ∧ ∀ n, Event.sleep n ∉
      ((publish_playmedia wArgs wEnvAck 1).getD (0, [])).2) ∧
    (0 = 2 → wEnvAck.isPublished 0 = false) :=
  claim_C10_immediate_ack wArgs wEnvAck 1 0
    (((publish_playmedia wArgs wEnvAck 1).getD (0, [])).2) rfl rfl

/-- C4: if the monotonic clock advances by at least the 100 ms sleep per
iteration, the wait loop terminates for every deadline: some fuel bound
makes it return, the result is exit code 0 or 2, exit 0 happens exactly
at the first acknowledged poll, and if no poll is ever acknowledged the
result is exit code 2. -/
theorem claim_C4_termination (env : Env) (dl : ℚ) (evs : List Event)
    (hprog : ∀ k, env.monotonic k + 1 / 10 ≤ env.monotonic (k + 1)) :
    ∃ N, ∀ fuel, N ≤ fuel →
      ∃ c evs', waitLoop env dl fuel 0 evs = some (c, evs') ∧
        (c = 0 ∨ c = 2) ∧
        (c = 0 → ∃ k, env.isPublished k = true ∧
          ∀ i, i < k → env.isPublished i = false) ∧
        ((∀ k, env.isPublished k = false) → c = 2) := by
  obtain ⟨n, hn⟩ := exists_nat_gt (10 * (dl - env.monotonic 0))
  have hmono := monotonic_lower env hprog n
  have hpass : dl < env.monotonic (n + 1) := by
    have hstep := hprog n
    linarith
  refine ⟨n + 1, fun fuel hfuel => ?_⟩
  obtain ⟨⟨c, evs'⟩, hr⟩ := waitLoop_isSome env dl fuel 0 evs
    ⟨n, by omega, by simpa using hpass⟩
  refine ⟨c, evs', hr, ?_⟩
  rcases waitLoop_cases env dl fuel 0 evs c evs' hr with
    ⟨rfl, j, -, hj, hint⟩ | ⟨rfl, j, -, hj, -, -⟩
  · exact ⟨Or.inl rfl,
      fun _ => ⟨j, hj, fun i hi => (hint i (Nat.zero_le i) hi).1⟩,
      fun hall => absurd hj (by simp [hall j])⟩
  · exact ⟨Or.inr rfl, fun h0 => absurd h0 (by norm_num), fun _ => rfl⟩

theorem claim_C4_termination_witness :
    ∃ N, ∀ fuel, N ≤ fuel →
      ∃ c evs', waitLoop wEnvSlow (1 / 2) fuel 0 [] = some (c, evs') ∧
        (c = 0 ∨ c = 2) ∧
        (c = 0 → ∃ k, wEnvSlow.isPublished k = true ∧
          ∀ i, i < k → wEnvSlow.isPublished i = false) ∧
        ((∀ k, wEnvSlow.isPublished k = false) → c = 2) :=
  claim_C4_termination wEnvSlow (1 / 2) [] (by
    intro k
    show (k : ℚ) / 10 + 1 / 10 ≤ ((k + 1 : Nat) : ℚ) / 10
    push_cast
    linarith)

theorem parse_args_loop_qos_aux :
    ∀ n l acc pos, l.length ≤ n →
      (acc.qos = 0 ∨ acc.qos = 1 ∨ acc.qos = 2) →
      ∀ a : Args, parse_args_loop l acc pos = Except.ok a →
        a.qos = 0 ∨ a.qos = 1 ∨ a.qos = 2 := by
  intro n
  induction n with
  | zero =>
    intro l acc pos hlen hq a h
    rcases l with _ | ⟨tok, rest⟩
    · rw [parse_args_loop] at h
      rcases pos with _ | ⟨d, _ | ⟨vid, _ | ⟨x, xs⟩⟩⟩
      · simp [finishPos] at h
      · simp [finishPos] at h
      · rw [finishPos, Except.ok.injEq] at h
        subst h
        simpa using hq
      · simp [finishPos] at h
    · simp at hlen
  | succ m ih =>
    intro l acc pos hlen hq a h
    rcases l with _ | ⟨tok, rest⟩
    · rw [parse_args_loop] at h
      rcases pos with _ | ⟨d, _ | ⟨vid, _ | ⟨x, xs⟩⟩⟩
      · simp [finishPos] at h
      · simp [finishPos] at h
      · rw [finishPos, Except.ok.injEq] at h
        subst h
        simpa using hq
      · simp [finishPos] at h
    · rw [parse_args_loop.eq_def] at h
      simp only [] at h
      simp only [List.length_cons] at hlen
      have hrest : rest.length ≤ m := by omega
      by_cases h1 : tok = "--retain"
      · rw [if_pos h1] at h
        exact ih _ _ _ hrest (by simpa using hq) a h
      rw [if_neg h1] at h
      by_cases h2 : tok = "--plain"
      · rw [if_pos h2] at h
        exact ih _ _ _ hrest (by simpa using hq) a h
      rw [if_neg h2] at h
      by_cases h3 : tok = "--broker"
      · rw [if_pos h3] at h
        rcases rest with _ | ⟨v, rest2⟩
        · exact Except.noConfusion h
        · simp only [] at h
          simp only [List.length_cons] at hrest
          exact ih _ _ _ (by omega) (by simpa using hq) a h
      rw [if_neg h3] at h
      by_cases h4 : tok = "--port"
      · rw [if_pos h4] at h
        rcases rest with _ | ⟨v, rest2⟩
        · exact Except.noConfusion h
        · simp only [] at h
          simp only [List.length_cons] at hrest
          rcases hpi : pyInt v with - | k
          · rw [hpi] at h
            exact Except.noConfusion h
          · rw [hpi] at h
            simp only [] at h
            exact ih _ _ _ (by omega) (by simpa using hq) a h
      rw [if_neg h4] at h
      by_cases h5 : tok = "--username"
      · rw [if_pos h5] at h
        rcases rest with _ | ⟨v, rest2⟩
        · exact Except.noConfusion h
        · simp only [] at h
          simp only [List.length_cons] at hrest
          exact ih _ _ _ (by omega) (by simpa using hq) a h
      rw [if_neg h5] at h
      by_cases h6 : tok = "--password"
      · rw [if_pos h6] at h
        rcases rest with _ | ⟨v, rest2⟩
        · exact Except.noConfusion h
        · simp only [] at h
          simp only [List.length_cons] at hrest
          exact ih _ _ _ (by omega) (by simpa using hq) a h
      rw [if_neg h6] at h
      by_cases h7 : tok = "--qos"
      · rw [if_pos h7] at h
        rcases rest with _ | ⟨v, rest2⟩
        · exact Except.noConfusion h
        · simp only [] at h
          simp only [List.length_cons] at hrest
          rcases hpi : pyInt v with - | k
          · rw [hpi] at h
            exact Except.noConfusion h
          · rw [hpi] at h
            simp only [] at h
            by_cases hk : k = 0 ∨ k = 1 ∨ k = 2
            · rw [if_pos hk] at h
              exact ih _ _ _ (by omega) (by simpa using hk) a h
            · rw [if_neg hk] at h
              exact Except.noConfusion h
      rw [if_neg h7] at h
      by_cases h8 : tok = "--transport"
      · rw [if_pos h8] at h
        rcases rest with _ | ⟨v, rest2⟩
        · exact Except.noConfusion h
        · simp only [] at h
          simp only [List.length_cons] at hrest
          by_cases ht : v = "tcp" ∨ v = "websockets"
          · rw [if_pos ht] at h
            exact ih _ _ _ (by omega) (by simpa using hq) a h
          · rw [if_neg ht] at h
            exact Except.noConfusion h
      rw [if_neg h8] at h
      by_cases h9 : tok = "--ws-path"
      · rw [if_pos h9] at h
        rcases rest with _ | ⟨v, rest2⟩
        · exact Except.noConfusion h
        · simp only [] at h
          simp only [List.length_cons] at hrest
          exact ih _ _ _ (by omega) (by simpa using hq) a h
      rw [if_neg h9] at h
      by_cases h10 : tok = "--timeout"
      · rw [if_pos h10] at h
        rcases rest with _ | ⟨v, rest2⟩
        · exact Except.noConfusion h
        · simp only [] at h
          simp only [List.length_cons] at hrest
          rcases hpf : pyFloat v with - | q
          · rw [hpf] at h
            exact Except.noConfusion h
          · rw [hpf] at h
            simp only [] at h
            exact ih _ _ _ (by omega) (by simpa using hq) a h
      rw [if_neg h10] at h
      by_cases h11 : String.startsWith tok "--"
      · rw [if_pos h11] at h
        exact Except.noConfusion h
      · rw [if_neg h11] at h
        exact ih _ _ _ hrest (by simpa using hq) a h

theorem parse_args_loop_qos (l : List String) (acc : Args) (pos : List String)
    (hq : acc.qos = 0 ∨ acc.qos = 1 ∨ acc.qos = 2) (a : Args)
    (h : parse_args_loop l acc pos = Except.ok a) :
    a.qos = 0 ∨ a.qos = 1 ∨ a.qos = 2 :=
  parse_args_loop_qos_aux l.length l acc pos (le_refl _) hq a h

/-- C6: the parser can only succeed with a QoS in `{0, 1, 2}` (so an
argument list carrying an invalid `--qos` value never reaches the
publisher); on any parse error `main` exits with the argparse usage
status 2 and an empty event trace — no client call, hence no network
activity — and encountering `--qos` with an integer value outside the
choices is such an error. -/
theorem claim_C6_qos_validation :
    (∀ argv a, parse_args argv = Except.ok a →
      a.qos = 0 ∨ a.qos = 1 ∨ a.qos = 2) ∧
    (∀ argv env fuel e, parse_args argv = Except.error e →
      main argv env fuel = some (2, [])) ∧
    (∀ v rest acc pos n, pyInt v = some n → ¬(n = 0 ∨ n = 1 ∨ n = 2) →
      parse_args_loop ("--qos" :: v :: rest) acc pos =
        Except.error "argument --qos: invalid choice") := by
  refine ⟨?_, ?_, ?_⟩
  · intro argv a h
    exact parse_args_loop_qos argv {} [] (Or.inr (Or.inl rfl)) a h
  · intro argv env fuel e h
    rw [main, h]
  · intro v rest acc pos n hv hn
    rw [parse_args_loop.eq_def]
    simp [hv, hn]

theorem claim_C6_qos_validation_witness :
    parse_args_loop ["--qos", "3"] {} [] =
      Except.error "argument --qos: invalid choice" :=
  claim_C6_qos_validation.2.2 "3" [] {} [] 3 (by decide) (by decide)

end GhostTube
